import Mathlib

/-!
Verification development for the meshlite geometry kernel (src/util.rs).

The Rust code computes over f32; this embedding idealises the arithmetic as
exact arithmetic over a linear ordered field (instantiated at the rationals
for the fully executable functions, and at the reals for the functions that
take square roots or inverse cosines).  Decimal literals such as 0.707 are
embedded as the exact rationals they denote in the source text.
-/

namespace Meshlite

/-- A 3-component vector/point, the embedding of both cgmath Vector3 and
Point3 (the Rust code converts freely between the two; all arithmetic is
componentwise and identical). -/
@[ext]
structure V3 (α : Type) where
  x : α
  y : α
  z : α
deriving DecidableEq, Repr

variable {α : Type}

instance [Add α] : Add (V3 α) := ⟨fun a b => ⟨a.x + b.x, a.y + b.y, a.z + b.z⟩⟩

instance [Sub α] : Sub (V3 α) := ⟨fun a b => ⟨a.x - b.x, a.y - b.y, a.z - b.z⟩⟩

instance [Neg α] : Neg (V3 α) := ⟨fun a => ⟨-a.x, -a.y, -a.z⟩⟩

instance [Mul α] : SMul α (V3 α) := ⟨fun r a => ⟨r * a.x, r * a.y, r * a.z⟩⟩

instance [Zero α] : Zero (V3 α) := ⟨⟨0, 0, 0⟩⟩

@[simp] theorem add_x [Add α] (a b : V3 α) : (a + b).x = a.x + b.x := rfl

@[simp] theorem add_y [Add α] (a b : V3 α) : (a + b).y = a.y + b.y := rfl

@[simp] theorem add_z [Add α] (a b : V3 α) : (a + b).z = a.z + b.z := rfl

@[simp] theorem sub_x [Sub α] (a b : V3 α) : (a - b).x = a.x - b.x := rfl

@[simp] theorem sub_y [Sub α] (a b : V3 α) : (a - b).y = a.y - b.y := rfl

@[simp] theorem sub_z [Sub α] (a b : V3 α) : (a - b).z = a.z - b.z := rfl

@[simp] theorem neg_x [Neg α] (a : V3 α) : (-a).x = -a.x := rfl

@[simp] theorem neg_y [Neg α] (a : V3 α) : (-a).y = -a.y := rfl

@[simp] theorem neg_z [Neg α] (a : V3 α) : (-a).z = -a.z := rfl

@[simp] theorem smul_x [Mul α] (r : α) (a : V3 α) : (r • a).x = r * a.x := rfl

@[simp] theorem smul_y [Mul α] (r : α) (a : V3 α) : (r • a).y = r * a.y := rfl

@[simp] theorem smul_z [Mul α] (r : α) (a : V3 α) : (r • a).z = r * a.z := rfl

@[simp] theorem zero_x [Zero α] : (0 : V3 α).x = 0 := rfl

@[simp] theorem zero_y [Zero α] : (0 : V3 α).y = 0 := rfl

@[simp] theorem zero_z [Zero α] : (0 : V3 α).z = 0 := rfl

@[simp] theorem mk_x (a b c : α) : (V3.mk a b c).x = a := rfl

@[simp] theorem mk_y (a b c : α) : (V3.mk a b c).y = b := rfl

@[simp] theorem mk_z (a b c : α) : (V3.mk a b c).z = c := rfl

/-- cgmath dot product. -/
def dot [Mul α] [Add α] (a b : V3 α) : α :=
  a.x * b.x + a.y * b.y + a.z * b.z

/-- cgmath cross product. -/
def cross [Mul α] [Sub α] (a b : V3 α) : V3 α :=
  ⟨a.y * b.z - a.z * b.y, a.z * b.x - a.x * b.z, a.x * b.y - a.y * b.x⟩

section Field

variable [LinearOrderedField α]

/-- Source constant SMALL_NUM = 0.00000001. -/
def SMALL_NUM (α : Type) [LinearOrderedField α] : α := 1 / 100000000

/-- Embedding of point_side_on_plane (src/util.rs lines 83-93). -/
inductive PointSide where
  | Front
  | Back
  | Coincident
deriving DecidableEq, Repr

/-- Source function point_side_on_plane: sign of (pt − pt_on_plane)·norm. -/
def point_side_on_plane (pt pt_on_plane nrm : V3 α) : PointSide :=
  let line := pt - pt_on_plane
  let d := dot line nrm
  if d > 0 then PointSide.Front
  else if d < 0 then PointSide.Back
  else PointSide.Coincident

/-- Result type of intersect_of_segment_and_plane (src/util.rs lines 97-102). -/
inductive SegmentPlaneIntersect (α : Type) where
  | NoIntersection
  | Parallel
  | LiesIn
  | Intersection (pt : V3 α)
deriving DecidableEq

/-- Source function intersect_of_segment_and_plane (src/util.rs lines 108-124).
The f32 code additionally rejects a NaN or infinite parameter s_i; in exact
arithmetic the divisor d is nonzero on that branch, so s_i is always a finite
field element and those two checks are identically false and omitted. -/
def intersect_of_segment_and_plane (p0 p1 pt_on_plane nrm : V3 α) :
    SegmentPlaneIntersect α :=
  let u := p1 - p0
  let w := p0 - pt_on_plane
  let d := dot nrm u
  let n := -(dot nrm w)
  if |d| < SMALL_NUM α then
    if n = 0 then SegmentPlaneIntersect.LiesIn
    else SegmentPlaneIntersect.Parallel
  else
    let s_i := n / d
    if s_i < 0 ∨ s_i > 1 then SegmentPlaneIntersect.NoIntersection
    else SegmentPlaneIntersect.Intersection (p0 + s_i • u)

/-- Source function is_segment_and_quad_intersect (src/util.rs lines 128-148),
restricted to its panic-free domain: the Rust reads quad[0], quad[1] and
quad[2] eagerly and aborts on vectors shorter than 3 points, and every getD
below hits a real entry whenever the quad has at least 3 points.  The
panic-aware embedding is_segment_and_quad_intersect_checked below wraps this
function and models the abort as none. -/
def is_segment_and_quad_intersect (p0 p1 : V3 α) (quad : List (V3 α)) : Bool :=
  let r1 := p0
  let r2 := p1
  let s1 := quad.getD 0 0
  let s2 := quad.getD 1 0
  let s3 := quad.getD 2 0
  let ds21 := s2 - s1
  let ds31 := s3 - s1
  let n := cross ds21 ds31
  let dr := r1 - r2
  let ndotdr := dot n dr
  if |ndotdr| < SMALL_NUM α then false
  else
    let t := -(dot n (r1 - s1)) / ndotdr
    let m := r1 + t • dr
    let dms1 := m - s1
    let u := dot dms1 ds21
    let v := dot dms1 ds31
    decide (u ≥ 0 ∧ u ≤ dot ds21 ds21 ∧ v ≥ 0 ∧ v ≤ dot ds31 ds31)

/-- Source function is_two_quads_intersect (src/util.rs lines 150-162): any
edge of the second quad against the first quad, or any edge of the first quad
against the second quad (the Rust early-return loops are the Bool any).
Faithful on the panic-free domain where both lists have at least 3 points;
the panic-aware embedding is is_two_quads_intersect_checked below. -/
def is_two_quads_intersect (first_quad second_quad : List (V3 α)) : Bool :=
  (((List.range second_quad.length).any fun i =>
      is_segment_and_quad_intersect (second_quad.getD i 0)
        (second_quad.getD ((i + 1) % second_quad.length) 0) first_quad)) ||
  (((List.range first_quad.length).any fun i =>
      is_segment_and_quad_intersect (first_quad.getD i 0)
        (first_quad.getD ((i + 1) % first_quad.length) 0) second_quad))

/-- Panic-aware embedding of the segment/quad test: the Rust function reads
quad[0], quad[1] and quad[2] unconditionally before any arithmetic, so a call
with fewer than 3 quad points aborts with an index panic, modelled as none;
on 3 or more points it completes with the test result. -/
def is_segment_and_quad_intersect_checked (p0 p1 : V3 α)
    (quad : List (V3 α)) : Option Bool :=
  if quad.length < 3 then none
  else some (is_segment_and_quad_intersect p0 p1 quad)

/-- Rust loop semantics over a list of indices: a panic (none) aborts the
whole computation, a true test returns true early, otherwise the loop
continues and ends with false. -/
def anyChecked (l : List ℕ) (f : ℕ → Option Bool) : Option Bool :=
  match l with
  | [] => some false
  | i :: rest =>
    match f i with
    | none => none
    | some true => some true
    | some false => anyChecked rest f

/-- Panic-aware embedding of is_two_quads_intersect (src/util.rs lines
150-162): the two loops run in source order, abort on an index panic (none)
and return early on a true edge test. -/
def is_two_quads_intersect_checked (first_quad second_quad : List (V3 α)) :
    Option Bool :=
  match anyChecked (List.range second_quad.length) (fun i =>
      is_segment_and_quad_intersect_checked (second_quad.getD i 0)
        (second_quad.getD ((i + 1) % second_quad.length) 0) first_quad) with
  | none => none
  | some true => some true
  | some false =>
    anyChecked (List.range first_quad.length) (fun i =>
      is_segment_and_quad_intersect_checked (first_quad.getD i 0)
        (first_quad.getD ((i + 1) % first_quad.length) 0) second_quad)

/-- Source constant WORLD_Y_AXIS. -/
def WORLD_Y_AXIS (α : Type) [LinearOrderedField α] : V3 α := ⟨0, 1, 0⟩

/-- Source constant WORLD_X_AXIS. -/
def WORLD_X_AXIS (α : Type) [LinearOrderedField α] : V3 α := ⟨1, 0, 0⟩

/-- Source function world_perp (src/util.rs lines 234-246): cross with the
world Y axis when nearly aligned with the world X axis, otherwise cross with
the world X axis. -/
def world_perp (direct : V3 α) : V3 α :=
  if |dot direct (WORLD_X_AXIS α)| > 707 / 1000 then
    cross direct (WORLD_Y_AXIS α)
  else
    cross direct (WORLD_X_AXIS α)

/-- The behaviour claim C1 ascribes to world_perp, written from the words of
the claim: cross with the world Y axis unless nearly aligned with the world X
axis, in which case cross with the world X axis. -/
def world_perp_claimed (direct : V3 α) : V3 α :=
  if |dot direct (WORLD_X_AXIS α)| > 707 / 1000 then
    cross direct (WORLD_X_AXIS α)
  else
    cross direct (WORLD_Y_AXIS α)

/-- The amendment of claim C1: the two branch results are swapped relative to
the claimed behaviour. -/
def world_perp_amended_spec (direct : V3 α) : V3 α :=
  if |dot direct (WORLD_X_AXIS α)| > 707 / 1000 then
    cross direct (WORLD_Y_AXIS α)
  else
    cross direct (WORLD_X_AXIS α)

/-- cgmath project_on: b * (a·b / b·b). -/
def project_on (a b : V3 α) : V3 α := (dot a b / dot b b) • b

/-- Source function calculate_deform_position (src/util.rs lines 248-259). -/
def calculate_deform_position (vert_position vert_ray deform_norm : V3 α)
    (deform_factor : α) : V3 α :=
  let revised_norm :=
    if dot vert_ray deform_norm < 0 then -deform_norm else deform_norm
  let proj := project_on vert_ray revised_norm
  let scaled_proj := deform_factor • proj
  vert_position + (scaled_proj - proj)

end Field

section RealFns

open Real

/-- cgmath magnitude: the square root of the dot product with itself. -/
noncomputable def magnitude (v : V3 ℝ) : ℝ := Real.sqrt (dot v v)

/-- cgmath normalize: v scaled by the reciprocal of its magnitude.  In exact
real arithmetic normalizing the zero vector yields the zero vector (division
by zero is zero in Lean); in f32 it yields a NaN vector.  The NaN outcome is
therefore represented by the zero vector throughout this embedding. -/
noncomputable def normalize (v : V3 ℝ) : V3 ℝ := (magnitude v)⁻¹ • v

/-- Source function norm (src/util.rs lines 28-33): normalized cross product
of the two edge vectors out of p1. -/
noncomputable def norm (p1 p2 p3 : V3 ℝ) : V3 ℝ :=
  let side1 := p2 - p1
  let side2 := p3 - p1
  let perp := cross side1 side2
  normalize perp

/-- Source function is_valid_norm (src/util.rs lines 180-182): true iff no
component is NaN.  Its only callers apply it to a normalize result, whose f32
NaN case (normalizing a zero vector, 0/0) is represented here by the zero
vector, so validity becomes being nonzero. -/
noncomputable def is_valid_norm (nrm : V3 ℝ) : Bool := decide (nrm ≠ 0)

/-- Source function point_in_triangle (src/util.rs lines 43-61): barycentric
sign tests followed by the ratio test r + t ≤ 1. -/
noncomputable def point_in_triangle (a b c p : V3 ℝ) : Bool :=
  let u := b - a
  let v := c - a
  let w := p - a
  let v_cross_w := cross v w
  let v_cross_u := cross v u
  if dot v_cross_w v_cross_u < 0 then false
  else
    let u_cross_w := cross u w
    let u_cross_v := cross u v
    if dot u_cross_w u_cross_v < 0 then false
    else
      let denom := magnitude u_cross_v
      let r := magnitude v_cross_w / denom
      let t := magnitude u_cross_w / denom
      decide (r + t ≤ 1)

/-- cgmath conversion from radians to degrees. -/
noncomputable def degOfRad (r : ℝ) : ℝ := r * (180 / Real.pi)

/-- Source function angle360 (src/util.rs lines 65-73): acos of the dot
product, plus 180 degrees when the cross product opposes the reference
direction. -/
noncomputable def angle360 (a b direct : V3 ℝ) : ℝ :=
  let angle := Real.arccos (dot a b)
  let c := cross a b
  if dot c direct < 0 then 180 + degOfRad angle else degOfRad angle

/-- The integer percent key the source uses for weight sorting:
(weights[i] * 100.0) as usize.  The Rust as-cast truncates toward zero and
clamps negative values to zero, which on every input agrees with the floor
followed by Int.toNat. -/
noncomputable def weightKey (w : ℝ) : ℕ := (⌊w * 100⌋).toNat

/-- Source function pick_base_plane_norm (src/util.rs lines 184-232).  The
Rust stable sort_by with comparator b.1.cmp(a.1) is embedded as the stable
mergeSort with the descending-key relation; stable sorting under a fixed
total preorder has a unique result, so the two agree. -/
noncomputable def pick_base_plane_norm (directs positions : List (V3 ℝ))
    (weights : List ℝ) : Option (V3 ℝ) :=
  if directs.length ≤ 1 then
    none
  else if directs.length ≤ 2 then
    if |dot (directs.getD 0 0) (directs.getD 1 0)| < 966 / 1000 then
      some (normalize (cross (directs.getD 0 0) (directs.getD 1 0)))
    else none
  else if directs.length ≤ 3 then
    let n := norm (positions.getD 0 0) (positions.getD 1 0) (positions.getD 2 0)
    if is_valid_norm n then some (normalize n)
    else if |dot (directs.getD 0 0) (directs.getD 1 0)| < 966 / 1000 then
      some (normalize (cross (directs.getD 0 0) (directs.getD 1 0)))
    else if |dot (directs.getD 1 0) (directs.getD 2 0)| < 966 / 1000 then
      some (normalize (cross (directs.getD 1 0) (directs.getD 2 0)))
    else if |dot (directs.getD 2 0) (directs.getD 0 0)| < 966 / 1000 then
      some (normalize (cross (directs.getD 2 0) (directs.getD 0 0)))
    else none
  else
    let weighted_indices :=
      (List.range weights.length).map fun i => (i, weightKey (weights.getD i 0))
    let sorted := weighted_indices.mergeSort fun a b => decide (b.2 ≤ a.2)
    let i0 := (sorted.getD 0 (0, 0)).1
    let i1 := (sorted.getD 1 (0, 0)).1
    let i2 := (sorted.getD 2 (0, 0)).1
    let n := norm (positions.getD i0 0) (positions.getD i1 0) (positions.getD i2 0)
    if is_valid_norm n then some (normalize n)
    else if |dot (directs.getD i0 0) (directs.getD i1 0)| < 966 / 1000 then
      some (normalize (cross (directs.getD i0 0) (directs.getD i1 0)))
    else if |dot (directs.getD i1 0) (directs.getD i2 0)| < 966 / 1000 then
      some (normalize (cross (directs.getD i1 0) (directs.getD i2 0)))
    else if |dot (directs.getD i2 0) (directs.getD i0 0)| < 966 / 1000 then
      some (normalize (cross (directs.getD i2 0) (directs.getD i0 0)))
    else none

/-- The 3-sample policy of the spec, written from the words of claim C5 and
spec section 4.4: the triangle normal across the three positions if valid,
otherwise the first pairwise cross product (pairs 0-1, 1-2, 2-0) whose
directions have |dot| < 0.966, otherwise none. -/
noncomputable def threeSamplePolicy (d0 d1 d2 p0 p1 p2 : V3 ℝ) : Option (V3 ℝ) :=
  let n := norm p0 p1 p2
  if is_valid_norm n then some (normalize n)
  else if |dot d0 d1| < 966 / 1000 then some (normalize (cross d0 d1))
  else if |dot d1 d2| < 966 / 1000 then some (normalize (cross d1 d2))
  else if |dot d2 d0| < 966 / 1000 then some (normalize (cross d2 d0))
  else none

/-- The u basis vector computed inside make_quad (src/util.rs lines 275-286),
before normalization. -/
noncomputable def quadU (direct base_norm : V3 ℝ) : V3 ℝ :=
  let direct_normalized := normalize direct
  let base_norm_normalized := normalize base_norm
  let d := dot direct_normalized base_norm
  let oriented_base_norm :=
    if d > 0 then base_norm_normalized else -base_norm_normalized
  if |dot direct_normalized oriented_base_norm| > 707 / 1000 then
    cross direct_normalized (world_perp oriented_base_norm)
  else
    cross direct_normalized oriented_base_norm

/-- The v basis vector computed inside make_quad (src/util.rs line 287),
before normalization: u cross the raw direction. -/
noncomputable def quadV (direct base_norm : V3 ℝ) : V3 ℝ :=
  cross (quadU direct base_norm) direct

/-- Source function make_quad (src/util.rs lines 261-299). -/
noncomputable def make_quad (position direct : V3 ℝ) (radius : ℝ)
    (base_norm : V3 ℝ) : List (V3 ℝ) :=
  let u := radius • normalize (quadU direct base_norm)
  let v := radius • normalize (quadV direct base_norm)
  let origin := position + radius • direct
  [origin - u - v, origin + u - v, origin + u + v, origin - u + v]

/-- Sum of a list of vectors. -/
def vsum (l : List (V3 ℝ)) : V3 ℝ := l.foldr (fun a s => a + s) 0

/-- Centroid of a list of points. -/
noncomputable def centroid (l : List (V3 ℝ)) : V3 ℝ :=
  ((l.length : ℝ))⁻¹ • vsum l

/-- Euclidean distance between two embedded points. -/
noncomputable def dist3 (a b : V3 ℝ) : ℝ := magnitude (a - b)

end RealFns

/-! ## Claim C1 -/

/-- C1 counterexample: at direction (1,0,0), which is fully aligned with the
world X axis, the claim predicts cross with the world X axis (the zero
vector), but world_perp returns the cross with the world Y axis, (0,0,1). -/
theorem world_perp_c1_counterexample :
    world_perp (⟨1, 0, 0⟩ : V3 ℚ) = ⟨0, 0, 1⟩ ∧
    world_perp_claimed (⟨1, 0, 0⟩ : V3 ℚ) = ⟨0, 0, 0⟩ ∧
    world_perp (⟨1, 0, 0⟩ : V3 ℚ) ≠ world_perp_claimed ⟨1, 0, 0⟩ := by
  refine ⟨?_, ?_, ?_⟩ <;>
    norm_num [world_perp, world_perp_claimed, dot, cross, WORLD_X_AXIS,
      WORLD_Y_AXIS, V3.ext_iff]

/-- C1 amended: for every direction, world_perp returns direction cross the
world X axis, unless the direction is nearly aligned with the world X axis
(|direction·worldXAxis| > 0.707), in which case it returns direction cross
the world Y axis. -/
theorem world_perp_c1_amended (direct : V3 ℚ) :
    world_perp direct = world_perp_amended_spec direct := rfl

/-! ## Claim C7 -/

/-- C7: point_side_on_plane returns Front iff (pt − ptOnPlane)·normal > 0,
Back iff that dot product is < 0, and Coincident iff it is exactly zero. -/
theorem point_side_on_plane_c7 (pt q nrm : V3 ℚ) :
    (point_side_on_plane pt q nrm = PointSide.Front ↔ 0 < dot (pt - q) nrm) ∧
    (point_side_on_plane pt q nrm = PointSide.Back ↔ dot (pt - q) nrm < 0) ∧
    (point_side_on_plane pt q nrm = PointSide.Coincident ↔
      dot (pt - q) nrm = 0) := by
  unfold point_side_on_plane
  rcases lt_trichotomy (dot (pt - q) nrm) 0 with h | h | h
  · simp [h, lt_asymm h, h.ne]
  · simp [h]
  · simp [h, lt_asymm h, h.ne.symm]

/-- C7 witness: a point one unit along the plane normal is classified Front. -/
theorem point_side_on_plane_c7_witness :
    point_side_on_plane (⟨0, 0, 1⟩ : V3 ℚ) ⟨0, 0, 0⟩ ⟨0, 0, 1⟩ =
      PointSide.Front :=
  (point_side_on_plane_c7 ⟨0, 0, 1⟩ ⟨0, 0, 0⟩ ⟨0, 0, 1⟩).1.mpr
    (by norm_num [dot])

/-! ## Claim C3 -/

/-- C3: with u = p1−p0, w = p0−ptOnPlane, d = normal·u, n = −normal·w, the
segment/plane test returns LiesIn when |d| < 1e-8 and n = 0 exactly, Parallel
when |d| < 1e-8 and n ≠ 0, NoIntersection when |d| ≥ 1e-8 and s = n/d lies
outside [0,1] (a non-finite s cannot arise in exact arithmetic since d ≠ 0),
and Intersection(p0 + s·u) otherwise. -/
theorem intersect_of_segment_and_plane_c3 (p0 p1 q nrm : V3 ℚ) :
    (|dot nrm (p1 - p0)| < SMALL_NUM ℚ ∧ -(dot nrm (p0 - q)) = 0 →
      intersect_of_segment_and_plane p0 p1 q nrm =
        SegmentPlaneIntersect.LiesIn) ∧
    (|dot nrm (p1 - p0)| < SMALL_NUM ℚ ∧ -(dot nrm (p0 - q)) ≠ 0 →
      intersect_of_segment_and_plane p0 p1 q nrm =
        SegmentPlaneIntersect.Parallel) ∧
    (SMALL_NUM ℚ ≤ |dot nrm (p1 - p0)| ∧
        (-(dot nrm (p0 - q)) / dot nrm (p1 - p0) < 0 ∨
          1 < -(dot nrm (p0 - q)) / dot nrm (p1 - p0)) →
      intersect_of_segment_and_plane p0 p1 q nrm =
        SegmentPlaneIntersect.NoIntersection) ∧
    (SMALL_NUM ℚ ≤ |dot nrm (p1 - p0)| ∧
        ¬(-(dot nrm (p0 - q)) / dot nrm (p1 - p0) < 0 ∨
          1 < -(dot nrm (p0 - q)) / dot nrm (p1 - p0)) →
      intersect_of_segment_and_plane p0 p1 q nrm =
        SegmentPlaneIntersect.Intersection
          (p0 + (-(dot nrm (p0 - q)) / dot nrm (p1 - p0)) • (p1 - p0))) := by
  unfold intersect_of_segment_and_plane
  refine ⟨fun ⟨h1, h2⟩ => ?_, fun ⟨h1, h2⟩ => ?_,
    fun ⟨h1, h2⟩ => ?_, fun ⟨h1, h2⟩ => ?_⟩
  · simp [h1, h2]
  · simp [h1, h2]
  · simp [h1.not_lt, h2]
  · simp [h1.not_lt, h2]

/-- C3 witness: the vertical segment from (0,0,−1) to (0,0,1) meets the plane
through the origin with normal (0,0,1) at the origin. -/
theorem intersect_of_segment_and_plane_c3_witness :
    intersect_of_segment_and_plane (⟨0, 0, -1⟩ : V3 ℚ) ⟨0, 0, 1⟩ ⟨0, 0, 0⟩
      ⟨0, 0, 1⟩ = SegmentPlaneIntersect.Intersection ⟨0, 0, 0⟩ := by
  have h := (intersect_of_segment_and_plane_c3 ⟨0, 0, -1⟩ ⟨0, 0, 1⟩ ⟨0, 0, 0⟩
    ⟨0, 0, 1⟩).2.2.2 ⟨by norm_num [dot, SMALL_NUM], by norm_num [dot]⟩
  rw [h]
  norm_num [dot, V3.ext_iff]

/-! ## Claim C2 -/

/-- A segment whose direction is perpendicular to the plane normal of the
first three quad points is rejected by the near-parallel test and the quad
test returns false. -/
theorem seg_quad_parallel_false (p0 p1 : V3 ℚ) (quad : List (V3 ℚ))
    (h : dot (cross (quad.getD 1 0 - quad.getD 0 0)
      (quad.getD 2 0 - quad.getD 0 0)) (p0 - p1) = 0) :
    is_segment_and_quad_intersect p0 p1 quad = false := by
  simp only [is_segment_and_quad_intersect]
  rw [h, abs_zero, if_pos]
  norm_num [SMALL_NUM]

/-- Every edge of a planar quad lies in the plane spanned at its first
vertex, so every self edge-vs-quad test hits the near-parallel rejection and
the quad/quad test of a planar quad against itself is false. -/
theorem planar_quad_self_false (q0 q1 q2 q3 : V3 ℚ)
    (hpl : dot (cross (q1 - q0) (q2 - q0)) (q3 - q0) = 0) :
    is_two_quads_intersect [q0, q1, q2, q3] [q0, q1, q2, q3] = false := by
  have n01 : dot (cross (q1 - q0) (q2 - q0)) (q0 - q1) = 0 := by
    simp only [dot, cross, sub_x, sub_y, sub_z, mk_x, mk_y, mk_z]
    ring
  have n12 : dot (cross (q1 - q0) (q2 - q0)) (q1 - q2) = 0 := by
    simp only [dot, cross, sub_x, sub_y, sub_z, mk_x, mk_y, mk_z]
    ring
  have n23 : dot (cross (q1 - q0) (q2 - q0)) (q2 - q3) = 0 := by
    simp only [dot, cross, sub_x, sub_y, sub_z, mk_x, mk_y, mk_z] at hpl ⊢
    linear_combination -hpl
  have e01 := seg_quad_parallel_false q0 q1 [q0, q1, q2, q3] (by simpa using n01)
  have e12 := seg_quad_parallel_false q1 q2 [q0, q1, q2, q3] (by simpa using n12)
  have e23 := seg_quad_parallel_false q2 q3 [q0, q1, q2, q3] (by simpa using n23)
  have e30 := seg_quad_parallel_false q3 q0 [q0, q1, q2, q3] (by simpa using hpl)
  simp only [is_two_quads_intersect]
  norm_num [List.range_succ, e01, e12, e23, e30]

/-- C2 counterexample: the unit square in the plane z = 0 is a planar,
non-collinear (hence non-degenerate) quad, yet the quad/quad intersection
test of the square against itself returns false, not true. -/
theorem is_two_quads_intersect_c2_counterexample :
    dot (cross ((⟨1, 0, 0⟩ : V3 ℚ) - ⟨0, 0, 0⟩) ((⟨1, 1, 0⟩ : V3 ℚ) - ⟨0, 0, 0⟩))
        ((⟨0, 1, 0⟩ : V3 ℚ) - ⟨0, 0, 0⟩) = 0 ∧
    cross ((⟨1, 0, 0⟩ : V3 ℚ) - ⟨0, 0, 0⟩) ((⟨1, 1, 0⟩ : V3 ℚ) - ⟨0, 0, 0⟩) ≠ 0 ∧
    is_two_quads_intersect
        [(⟨0, 0, 0⟩ : V3 ℚ), ⟨1, 0, 0⟩, ⟨1, 1, 0⟩, ⟨0, 1, 0⟩]
        [⟨0, 0, 0⟩, ⟨1, 0, 0⟩, ⟨1, 1, 0⟩, ⟨0, 1, 0⟩] = false := by
  refine ⟨by norm_num [dot, cross, V3.ext_iff], by norm_num [cross, V3.ext_iff],
    planar_quad_self_false _ _ _ _ (by norm_num [dot, cross, V3.ext_iff])⟩

/-- C2 amended: for every planar quad (its fourth point lying in the plane of
the first three), the quad/quad intersection test of the quad against itself
returns false: each of its edges is parallel to that plane, so every
edge-vs-quad test takes the near-parallel rejection branch. -/
theorem is_two_quads_intersect_c2_amended (q0 q1 q2 q3 : V3 ℚ)
    (hpl : dot (cross (q1 - q0) (q2 - q0)) (q3 - q0) = 0) :
    is_two_quads_intersect [q0, q1, q2, q3] [q0, q1, q2, q3] = false :=
  planar_quad_self_false q0 q1 q2 q3 hpl

/-- C2 amended witness: the unit square against itself. -/
theorem is_two_quads_intersect_c2_amended_witness :
    is_two_quads_intersect
        [(⟨0, 0, 0⟩ : V3 ℚ), ⟨2, 0, 0⟩, ⟨2, 2, 0⟩, ⟨0, 2, 0⟩]
        [⟨0, 0, 0⟩, ⟨2, 0, 0⟩, ⟨2, 2, 0⟩, ⟨0, 2, 0⟩] = false :=
  is_two_quads_intersect_c2_amended ⟨0, 0, 0⟩ ⟨2, 0, 0⟩ ⟨2, 2, 0⟩ ⟨0, 2, 0⟩
    (by norm_num [dot, cross, V3.ext_iff])

/-! ## Claim C9 -/

/-- C9: calculate_deform_position returns vertexPosition + (factor − 1)·proj
where proj is the projection of vertexRay onto the sign-corrected deform
normal; the displacement it applies is parallel to deformNormal (its
orthogonal component is zero), and with factor 1 the position is returned
unchanged. -/
theorem calculate_deform_position_c9 (p ray n : V3 ℚ) (f : ℚ) (h : n ≠ 0) :
    calculate_deform_position p ray n f =
      p + (f - 1) • project_on ray (if dot ray n < 0 then -n else n) ∧
    cross (calculate_deform_position p ray n f - p) n = 0 ∧
    calculate_deform_position p ray n 1 = p := by
  unfold calculate_deform_position project_on
  refine ⟨?_, ?_, ?_⟩
  · split <;> (ext <;> simp [dot] <;> ring)
  · split <;> (ext <;> simp [cross, dot] <;> ring)
  · split <;> (ext <;> simp [dot])

/-- C9 witness at position (1,2,3), ray (0,0,2), normal (0,0,1), factor 3. -/
theorem calculate_deform_position_c9_witness :
    calculate_deform_position (⟨1, 2, 3⟩ : V3 ℚ) ⟨0, 0, 2⟩ ⟨0, 0, 1⟩ 3 =
        ⟨1, 2, 3⟩ + ((3 : ℚ) - 1) •
          project_on ⟨0, 0, 2⟩
            (if dot (⟨0, 0, 2⟩ : V3 ℚ) ⟨0, 0, 1⟩ < 0 then -⟨0, 0, 1⟩
             else ⟨0, 0, 1⟩) ∧
      cross (calculate_deform_position (⟨1, 2, 3⟩ : V3 ℚ) ⟨0, 0, 2⟩ ⟨0, 0, 1⟩ 3
          - ⟨1, 2, 3⟩) ⟨0, 0, 1⟩ = 0 ∧
      calculate_deform_position (⟨1, 2, 3⟩ : V3 ℚ) ⟨0, 0, 2⟩ ⟨0, 0, 1⟩ 1 =
        ⟨1, 2, 3⟩ :=
  calculate_deform_position_c9 ⟨1, 2, 3⟩ ⟨0, 0, 2⟩ ⟨0, 0, 1⟩ 3
    (by norm_num [V3.ext_iff])

/-! ## Real-vector helper lemmas -/

theorem dot_self_nonneg (v : V3 ℝ) : 0 ≤ dot v v :=
  add_nonneg (add_nonneg (mul_self_nonneg _) (mul_self_nonneg _))
    (mul_self_nonneg _)

theorem v3_eq_zero_of_dot_self (v : V3 ℝ) (h : dot v v = 0) : v = 0 := by
  simp only [dot] at h
  have hx : v.x * v.x = 0 := by
    nlinarith [mul_self_nonneg v.x, mul_self_nonneg v.y, mul_self_nonneg v.z]
  have hy : v.y * v.y = 0 := by
    nlinarith [mul_self_nonneg v.x, mul_self_nonneg v.y, mul_self_nonneg v.z]
  have hz : v.z * v.z = 0 := by
    nlinarith [mul_self_nonneg v.x, mul_self_nonneg v.y, mul_self_nonneg v.z]
  ext
  · exact mul_self_eq_zero.mp hx
  · exact mul_self_eq_zero.mp hy
  · exact mul_self_eq_zero.mp hz

theorem dot_self_pos (v : V3 ℝ) (h : v ≠ 0) : 0 < dot v v :=
  lt_of_le_of_ne (dot_self_nonneg v)
    (fun e => h (v3_eq_zero_of_dot_self v e.symm))

/-- The Lagrange identity for the 3D cross product. -/
theorem lagrange_identity (a b : V3 ℝ) :
    dot a a * dot b b - dot a b * dot a b = dot (cross a b) (cross a b) := by
  simp only [dot, cross, mk_x, mk_y, mk_z]
  ring

theorem cross_self_eq_zero (v : V3 ℝ) : cross v v = 0 := by
  ext <;> simp only [cross, mk_x, mk_y, mk_z, zero_x, zero_y, zero_z] <;> ring

theorem cross_anticomm (a b : V3 ℝ) : cross a b = -(cross b a) := by
  ext <;> simp only [cross, mk_x, mk_y, mk_z, neg_x, neg_y, neg_z] <;> ring

theorem dot_smul_left (r : ℝ) (a b : V3 ℝ) : dot (r • a) b = r * dot a b := by
  simp only [dot, smul_x, smul_y, smul_z]
  ring

theorem magnitude_smul (r : ℝ) (v : V3 ℝ) :
    magnitude (r • v) = |r| * magnitude v := by
  unfold magnitude
  rw [show dot (r • v) (r • v) = r ^ 2 * dot v v by
    simp only [dot, smul_x, smul_y, smul_z]; ring]
  rw [Real.sqrt_mul (sq_nonneg r), Real.sqrt_sq_eq_abs]

theorem magnitude_neg (v : V3 ℝ) : magnitude (-v) = magnitude v := by
  unfold magnitude
  congr 1
  simp only [dot, neg_x, neg_y, neg_z]
  ring

theorem magnitude_pos (v : V3 ℝ) (h : v ≠ 0) : 0 < magnitude v :=
  Real.sqrt_pos.mpr (dot_self_pos v h)

/-! ## Claim C6 -/

/-- C6: for a unit vector v, angle360(v, v, reference) is exactly 0, and for
unit vectors a and b the value angle360(a, b, reference) lies in [0, 360). -/
theorem angle360_c6 (v r a b d : V3 ℝ) :
    (dot v v = 1 → angle360 v v r = 0) ∧
    (dot a a = 1 → dot b b = 1 →
      0 ≤ angle360 a b d ∧ angle360 a b d < 360) := by
  constructor
  · intro hv
    simp only [angle360, hv, Real.arccos_one, cross_self_eq_zero]
    rw [if_neg]
    · simp [degOfRad]
    · simp [dot]
  · intro ha hb
    have hL := lagrange_identity a b
    rw [ha, hb] at hL
    have hccn := dot_self_nonneg (cross a b)
    have h0 : 0 ≤ Real.arccos (dot a b) := Real.arccos_nonneg _
    have hpi : Real.arccos (dot a b) ≤ Real.pi := Real.arccos_le_pi _
    have hpifrac : (0 : ℝ) < 180 / Real.pi := by positivity
    have hdeg0 : 0 ≤ degOfRad (Real.arccos (dot a b)) :=
      mul_nonneg h0 hpifrac.le
    have hpi180 : Real.pi * (180 / Real.pi) = 180 := by
      field_simp
    have hdeg180 : degOfRad (Real.arccos (dot a b)) ≤ 180 := by
      calc Real.arccos (dot a b) * (180 / Real.pi)
          ≤ Real.pi * (180 / Real.pi) :=
            mul_le_mul_of_nonneg_right hpi hpifrac.le
        _ = 180 := hpi180
    simp only [angle360]
    split_ifs with hc
    · have hcne : cross a b ≠ 0 := by
        intro e
        rw [e] at hc
        simp [dot] at hc
      have hccp : 0 < dot (cross a b) (cross a b) := dot_self_pos _ hcne
      have hlb : (-1 : ℝ) < dot a b := by nlinarith
      have harc : Real.arccos (dot a b) < Real.pi := by
        refine lt_of_le_of_ne hpi fun e => ?_
        exact absurd (Real.arccos_eq_pi.mp e) (by linarith)
      have hdeglt : degOfRad (Real.arccos (dot a b)) < 180 := by
        calc Real.arccos (dot a b) * (180 / Real.pi)
            < Real.pi * (180 / Real.pi) :=
              mul_lt_mul_of_pos_right harc hpifrac
          _ = 180 := hpi180
      constructor
      · linarith
      · linarith
    · constructor
      · exact hdeg0
      · linarith

/-- C6 witness: the X axis unit vector against itself gives angle 0, and the
angle between the X and Y axis unit vectors lies in [0, 360). -/
theorem angle360_c6_witness :
    angle360 (⟨1, 0, 0⟩ : V3 ℝ) ⟨1, 0, 0⟩ ⟨0, 0, 1⟩ = 0 ∧
    (0 ≤ angle360 (⟨1, 0, 0⟩ : V3 ℝ) ⟨0, 1, 0⟩ ⟨0, 0, 1⟩ ∧
      angle360 (⟨1, 0, 0⟩ : V3 ℝ) ⟨0, 1, 0⟩ ⟨0, 0, 1⟩ < 360) := by
  constructor
  · exact (angle360_c6 ⟨1, 0, 0⟩ ⟨0, 0, 1⟩ ⟨1, 0, 0⟩ ⟨0, 1, 0⟩ ⟨0, 0, 1⟩).1
      (by norm_num [dot])
  · exact (angle360_c6 ⟨1, 0, 0⟩ ⟨0, 0, 1⟩ ⟨1, 0, 0⟩ ⟨0, 1, 0⟩ ⟨0, 0, 1⟩).2
      (by norm_num [dot]) (by norm_num [dot])

/-! ## Claim C8 -/

/-- C8: for every genuine (non-collinear) triangle a, b, c, the point-in-
triangle test accepts the centroid (a+b+c)/3.  Both barycentric ratios come
out as 1/3 and 1/3 + 1/3 ≤ 1. -/
theorem point_in_triangle_c8 (a b c : V3 ℝ)
    (h : cross (b - a) (c - a) ≠ 0) :
    point_in_triangle a b c ((3 : ℝ)⁻¹ • (a + b + c)) = true := by
  simp only [point_in_triangle]
  have hw : (3 : ℝ)⁻¹ • (a + b + c) - a = (3 : ℝ)⁻¹ • ((b - a) + (c - a)) := by
    ext <;> simp <;> ring
  rw [hw]
  have hvw : cross (c - a) ((3 : ℝ)⁻¹ • ((b - a) + (c - a)))
      = (3 : ℝ)⁻¹ • cross (c - a) (b - a) := by
    ext <;> simp [cross] <;> ring
  have huw : cross (b - a) ((3 : ℝ)⁻¹ • ((b - a) + (c - a)))
      = (3 : ℝ)⁻¹ • cross (b - a) (c - a) := by
    ext <;> simp [cross] <;> ring
  rw [hvw, huw]
  have h1 : ¬ dot ((3 : ℝ)⁻¹ • cross (c - a) (b - a))
      (cross (c - a) (b - a)) < 0 := by
    rw [dot_smul_left, not_lt]
    exact mul_nonneg (by norm_num) (dot_self_nonneg _)
  have h2 : ¬ dot ((3 : ℝ)⁻¹ • cross (b - a) (c - a))
      (cross (b - a) (c - a)) < 0 := by
    rw [dot_smul_left, not_lt]
    exact mul_nonneg (by norm_num) (dot_self_nonneg _)
  rw [if_neg h1, if_neg h2]
  have hM : magnitude (cross (c - a) (b - a))
      = magnitude (cross (b - a) (c - a)) := by
    rw [cross_anticomm (c - a) (b - a), magnitude_neg]
  have hMpos : 0 < magnitude (cross (b - a) (c - a)) := magnitude_pos _ h
  rw [magnitude_smul, magnitude_smul, hM, decide_eq_true_eq,
    abs_of_nonneg (by norm_num : (0 : ℝ) ≤ (3 : ℝ)⁻¹), mul_div_assoc,
    div_self hMpos.ne']
  norm_num

/-- C8 witness: the centroid of the standard right triangle in the plane
z = 0 is accepted. -/
theorem point_in_triangle_c8_witness :
    point_in_triangle (⟨0, 0, 0⟩ : V3 ℝ) ⟨1, 0, 0⟩ ⟨0, 1, 0⟩
      ((3 : ℝ)⁻¹ • ((⟨0, 0, 0⟩ : V3 ℝ) + ⟨1, 0, 0⟩ + ⟨0, 1, 0⟩)) = true :=
  point_in_triangle_c8 ⟨0, 0, 0⟩ ⟨1, 0, 0⟩ ⟨0, 1, 0⟩
    (by norm_num [cross, V3.ext_iff])

/-! ## Claim C5 -/

/-- C5: with at least 4 samples and equal-length lists, pick_base_plane_norm
sorts the sample indices by truncated integer-percent weight descending
(stably), takes the top three indices in that order, and returns exactly the
3-sample policy applied to that subset. -/
theorem pick_base_plane_norm_c5 (directs positions : List (V3 ℝ))
    (weights : List ℝ) (h4 : 4 ≤ directs.length)
    (hw : weights.length = directs.length)
    (hp : positions.length = directs.length) :
    pick_base_plane_norm directs positions weights =
      (let weighted_indices :=
        (List.range weights.length).map fun i =>
          (i, weightKey (weights.getD i 0))
      let sorted := weighted_indices.mergeSort fun a b => decide (b.2 ≤ a.2)
      let i0 := (sorted.getD 0 (0, 0)).1
      let i1 := (sorted.getD 1 (0, 0)).1
      let i2 := (sorted.getD 2 (0, 0)).1
      threeSamplePolicy (directs.getD i0 0) (directs.getD i1 0)
        (directs.getD i2 0) (positions.getD i0 0) (positions.getD i1 0)
        (positions.getD i2 0)) := by
  have h1 : ¬ directs.length ≤ 1 := by omega
  have h2 : ¬ directs.length ≤ 2 := by omega
  have h3 : ¬ directs.length ≤ 3 := by omega
  simp only [pick_base_plane_norm, if_neg h1, if_neg h2, if_neg h3,
    threeSamplePolicy]

/-- C5 witness: four samples with weights sorted stably; the top three are
the first three indices and the triangle normal of their positions is
returned by both sides. -/
theorem pick_base_plane_norm_c5_witness :
    pick_base_plane_norm
        [(⟨1, 0, 0⟩ : V3 ℝ), ⟨0, 1, 0⟩, ⟨0, 0, 1⟩, ⟨1, 1, 0⟩]
        [(⟨0, 0, 0⟩ : V3 ℝ), ⟨1, 0, 0⟩, ⟨0, 1, 0⟩, ⟨7, 7, 7⟩]
        [1, 1, 1, 0] =
      (let weighted_indices :=
        (List.range ([(1 : ℝ), 1, 1, 0].length)).map fun i =>
          (i, weightKey ([(1 : ℝ), 1, 1, 0].getD i 0))
      let sorted := weighted_indices.mergeSort fun a b => decide (b.2 ≤ a.2)
      let i0 := (sorted.getD 0 (0, 0)).1
      let i1 := (sorted.getD 1 (0, 0)).1
      let i2 := (sorted.getD 2 (0, 0)).1
      threeSamplePolicy
        ([(⟨1, 0, 0⟩ : V3 ℝ), ⟨0, 1, 0⟩, ⟨0, 0, 1⟩, ⟨1, 1, 0⟩].getD i0 0)
        ([(⟨1, 0, 0⟩ : V3 ℝ), ⟨0, 1, 0⟩, ⟨0, 0, 1⟩, ⟨1, 1, 0⟩].getD i1 0)
        ([(⟨1, 0, 0⟩ : V3 ℝ), ⟨0, 1, 0⟩, ⟨0, 0, 1⟩, ⟨1, 1, 0⟩].getD i2 0)
        ([(⟨0, 0, 0⟩ : V3 ℝ), ⟨1, 0, 0⟩, ⟨0, 1, 0⟩, ⟨7, 7, 7⟩].getD i0 0)
        ([(⟨0, 0, 0⟩ : V3 ℝ), ⟨1, 0, 0⟩, ⟨0, 1, 0⟩, ⟨7, 7, 7⟩].getD i1 0)
        ([(⟨0, 0, 0⟩ : V3 ℝ), ⟨1, 0, 0⟩, ⟨0, 1, 0⟩, ⟨7, 7, 7⟩].getD i2 0)) :=
  pick_base_plane_norm_c5
    [⟨1, 0, 0⟩, ⟨0, 1, 0⟩, ⟨0, 0, 1⟩, ⟨1, 1, 0⟩]
    [⟨0, 0, 0⟩, ⟨1, 0, 0⟩, ⟨0, 1, 0⟩, ⟨7, 7, 7⟩]
    [1, 1, 1, 0] (by norm_num) rfl rfl

/-! ## Claim C4 -/

theorem dot_smul_right (r : ℝ) (a b : V3 ℝ) : dot a (r • b) = r * dot a b := by
  simp only [dot, smul_x, smul_y, smul_z]
  ring

theorem dot_normalize_self (v : V3 ℝ) (h : v ≠ 0) :
    dot (normalize v) (normalize v) = 1 := by
  have hd : 0 < dot v v := dot_self_pos v h
  have hm : magnitude v * magnitude v = dot v v := Real.mul_self_sqrt hd.le
  have hmpos : 0 < magnitude v := magnitude_pos v h
  unfold normalize
  rw [dot_smul_left, dot_smul_right, ← hm]
  field_simp

theorem dot_normalize_zero (u v : V3 ℝ) (h : dot u v = 0) :
    dot (normalize u) (normalize v) = 0 := by
  unfold normalize
  rw [dot_smul_left, dot_smul_right, h]
  ring

/-- The scalar triple product with a repeated argument vanishes. -/
theorem dot_cross_self (x d : V3 ℝ) : dot x (cross x d) = 0 := by
  simp only [dot, cross, mk_x, mk_y, mk_z]
  ring

theorem quadU_dot_quadV (direct base_norm : V3 ℝ) :
    dot (quadU direct base_norm) (quadV direct base_norm) = 0 := by
  unfold quadV
  exact dot_cross_self _ _

/-- C4 amended: whenever the two basis vectors make_quad computes before
normalization are nonzero (the non-degenerate inputs of the claim), the quad
has exactly 4 points, its centroid is exactly position + direction·radius,
and every point lies at distance |radius|·√2 from that centroid. -/
theorem make_quad_c4_amended (position direct base_norm : V3 ℝ) (radius : ℝ)
    (hu : quadU direct base_norm ≠ 0) (hv : quadV direct base_norm ≠ 0) :
    (make_quad position direct radius base_norm).length = 4 ∧
    centroid (make_quad position direct radius base_norm) =
      position + radius • direct ∧
    ∀ q ∈ make_quad position direct radius base_norm,
      dist3 q (position + radius • direct) = |radius| * Real.sqrt 2 := by
  simp only [make_quad]
  set U := quadU direct base_norm with hU
  set V := quadV direct base_norm with hV
  set u := radius • normalize U with hu2
  set v := radius • normalize V with hv2
  set o := position + radius • direct with ho
  have huu : dot u u = radius ^ 2 := by
    rw [hu2, dot_smul_left, dot_smul_right, dot_normalize_self U hu]
    ring
  have hvv : dot v v = radius ^ 2 := by
    rw [hv2, dot_smul_left, dot_smul_right, dot_normalize_self V hv]
    ring
  have huv : dot u v = 0 := by
    rw [hu2, hv2, dot_smul_left, dot_smul_right,
      dot_normalize_zero U V (quadU_dot_quadV direct base_norm)]
    ring
  have habs : Real.sqrt (2 * radius ^ 2) = |radius| * Real.sqrt 2 := by
    rw [show (2 : ℝ) * radius ^ 2 = radius ^ 2 * 2 by ring,
      Real.sqrt_mul (sq_nonneg radius), Real.sqrt_sq_eq_abs]
  simp only [dot] at huu hvv huv
  have hd1 : dot (o - u - v - o) (o - u - v - o) = 2 * radius ^ 2 := by
    simp only [dot, sub_x, sub_y, sub_z]
    linear_combination huu + hvv + 2 * huv
  have hd2 : dot (o + u - v - o) (o + u - v - o) = 2 * radius ^ 2 := by
    simp only [dot, sub_x, sub_y, sub_z, add_x, add_y, add_z]
    linear_combination huu + hvv - 2 * huv
  have hd3 : dot (o + u + v - o) (o + u + v - o) = 2 * radius ^ 2 := by
    simp only [dot, sub_x, sub_y, sub_z, add_x, add_y, add_z]
    linear_combination huu + hvv + 2 * huv
  have hd4 : dot (o - u + v - o) (o - u + v - o) = 2 * radius ^ 2 := by
    simp only [dot, sub_x, sub_y, sub_z, add_x, add_y, add_z]
    linear_combination huu + hvv - 2 * huv
  refine ⟨rfl, ?_, ?_⟩
  · unfold centroid vsum
    simp only [List.foldr, List.length_cons, List.length_nil]
    norm_num
    ext <;> simp <;> ring
  · intro q hq
    simp only [List.mem_cons, List.not_mem_nil, or_false] at hq
    rcases hq with rfl | rfl | rfl | rfl
    · unfold dist3 magnitude
      rw [hd1, habs]
    · unfold dist3 magnitude
      rw [hd2, habs]
    · unfold dist3 magnitude
      rw [hd3, habs]
    · unfold dist3 magnitude
      rw [hd4, habs]

/-- A vector of unit square magnitude normalizes to itself. -/
theorem normalize_of_unit (v : V3 ℝ) (h : dot v v = 1) : normalize v = v := by
  unfold normalize magnitude
  rw [h, Real.sqrt_one]
  ext <;> simp

theorem quadU_eval : quadU (⟨0, 0, 1⟩ : V3 ℝ) ⟨0, 1, 0⟩ = ⟨1, 0, 0⟩ := by
  have h1 : normalize (⟨0, 0, 1⟩ : V3 ℝ) = ⟨0, 0, 1⟩ :=
    normalize_of_unit _ (by norm_num [dot])
  have h2 : normalize (⟨0, 1, 0⟩ : V3 ℝ) = ⟨0, 1, 0⟩ :=
    normalize_of_unit _ (by norm_num [dot])
  simp only [quadU, h1, h2]
  norm_num [dot, cross, world_perp, WORLD_X_AXIS, WORLD_Y_AXIS, V3.ext_iff]

theorem quadV_eval : quadV (⟨0, 0, 1⟩ : V3 ℝ) ⟨0, 1, 0⟩ = ⟨0, -1, 0⟩ := by
  simp only [quadV, quadU_eval]
  norm_num [cross, V3.ext_iff]

/-- C4 counterexample: position at the origin, direction (0,0,1), base
normal (0,1,0) and radius −1 are inputs the claim quantifies over (the
direction is nonzero and non-degenerate: both basis vectors are nonzero),
yet the first returned point lies at distance √2, not radius·√2 = −√2, from
the centroid position + direction·radius. -/
theorem make_quad_c4_counterexample :
    quadU (⟨0, 0, 1⟩ : V3 ℝ) ⟨0, 1, 0⟩ ≠ 0 ∧
    quadV (⟨0, 0, 1⟩ : V3 ℝ) ⟨0, 1, 0⟩ ≠ 0 ∧
    dist3 ((make_quad (⟨0, 0, 0⟩ : V3 ℝ) ⟨0, 0, 1⟩ (-1) ⟨0, 1, 0⟩).getD 0 0)
        ((⟨0, 0, 0⟩ : V3 ℝ) + (-1 : ℝ) • ⟨0, 0, 1⟩) ≠
      (-1 : ℝ) * Real.sqrt 2 := by
  refine ⟨by rw [quadU_eval]; norm_num [V3.ext_iff],
    by rw [quadV_eval]; norm_num [V3.ext_iff], ?_⟩
  have h1 : normalize (⟨1, 0, 0⟩ : V3 ℝ) = ⟨1, 0, 0⟩ :=
    normalize_of_unit _ (by norm_num [dot])
  have h2 : normalize (⟨0, -1, 0⟩ : V3 ℝ) = ⟨0, -1, 0⟩ :=
    normalize_of_unit _ (by norm_num [dot])
  have hfirst :
      (make_quad (⟨0, 0, 0⟩ : V3 ℝ) ⟨0, 0, 1⟩ (-1) ⟨0, 1, 0⟩).getD 0 0 =
        ⟨1, -1, -1⟩ := by
    simp only [make_quad, quadU_eval, quadV_eval, h1, h2, List.getD_cons_zero]
    norm_num [V3.ext_iff]
  rw [hfirst]
  unfold dist3 magnitude
  have hdot :
      dot ((⟨1, -1, -1⟩ : V3 ℝ) - ((⟨0, 0, 0⟩ : V3 ℝ) + (-1 : ℝ) • ⟨0, 0, 1⟩))
        ((⟨1, -1, -1⟩ : V3 ℝ) - ((⟨0, 0, 0⟩ : V3 ℝ) + (-1 : ℝ) • ⟨0, 0, 1⟩)) =
      2 := by
    norm_num [dot]
  rw [hdot]
  have hs : 0 < Real.sqrt 2 := Real.sqrt_pos.mpr (by norm_num)
  intro e
  nlinarith

/-- C4 amended witness: the quad at position the origin, direction (0,0,1),
radius 1, base normal (0,1,0). -/
theorem make_quad_c4_amended_witness :
    (make_quad (⟨0, 0, 0⟩ : V3 ℝ) ⟨0, 0, 1⟩ 1 ⟨0, 1, 0⟩).length = 4 ∧
    centroid (make_quad (⟨0, 0, 0⟩ : V3 ℝ) ⟨0, 0, 1⟩ 1 ⟨0, 1, 0⟩) =
      ⟨0, 0, 0⟩ + (1 : ℝ) • ⟨0, 0, 1⟩ ∧
    ∀ q ∈ make_quad (⟨0, 0, 0⟩ : V3 ℝ) ⟨0, 0, 1⟩ 1 ⟨0, 1, 0⟩,
      dist3 q ((⟨0, 0, 0⟩ : V3 ℝ) + (1 : ℝ) • ⟨0, 0, 1⟩) =
        |(1 : ℝ)| * Real.sqrt 2 :=
  make_quad_c4_amended ⟨0, 0, 0⟩ ⟨0, 0, 1⟩ ⟨0, 1, 0⟩ 1
    (by rw [quadU_eval]; norm_num [V3.ext_iff])
    (by rw [quadV_eval]; norm_num [V3.ext_iff])

/-! ## Claim C10 -/

/-- The total quad/quad test is symmetric: both argument orders combine the
same two edge-loop tests by or. -/
theorem is_two_quads_intersect_or_comm (A B : List (V3 ℚ)) :
    is_two_quads_intersect A B = is_two_quads_intersect B A := by
  unfold is_two_quads_intersect
  exact Bool.or_comm _ _

theorem is_segment_and_quad_intersect_checked_eq (p0 p1 : V3 ℚ)
    (quad : List (V3 ℚ)) (h : 3 ≤ quad.length) :
    is_segment_and_quad_intersect_checked p0 p1 quad =
      some (is_segment_and_quad_intersect p0 p1 quad) := by
  unfold is_segment_and_quad_intersect_checked
  rw [if_neg (by omega)]

theorem anyChecked_eq_any (l : List ℕ) (f : ℕ → Option Bool) (g : ℕ → Bool)
    (h : ∀ i, f i = some (g i)) : anyChecked l f = some (l.any g) := by
  induction l with
  | nil => rfl
  | cons a as ih =>
    simp only [anyChecked, h a, List.any_cons]
    cases hg : g a
    · simp only [Bool.false_or]
      exact ih
    · rfl

/-- On the panic-free domain (both lists of length at least 3) the
panic-aware quad/quad test completes with the total result. -/
theorem is_two_quads_intersect_checked_eq (fq sq : List (V3 ℚ))
    (h1 : 3 ≤ fq.length) (h2 : 3 ≤ sq.length) :
    is_two_quads_intersect_checked fq sq =
      some (is_two_quads_intersect fq sq) := by
  unfold is_two_quads_intersect_checked is_two_quads_intersect
  rw [anyChecked_eq_any _ _ (fun i =>
      is_segment_and_quad_intersect (sq.getD i 0)
        (sq.getD ((i + 1) % sq.length) 0) fq) (fun i =>
      is_segment_and_quad_intersect_checked_eq _ _ fq h1),
    anyChecked_eq_any _ _ (fun i =>
      is_segment_and_quad_intersect (fq.getD i 0)
        (fq.getD ((i + 1) % fq.length) 0) sq) (fun i =>
      is_segment_and_quad_intersect_checked_eq _ _ sq h2)]
  cases hb : (List.range sq.length).any (fun i =>
      is_segment_and_quad_intersect (sq.getD i 0)
        (sq.getD ((i + 1) % sq.length) 0) fq)
  · simp [hb]
  · simp [hb]

/-- C10 counterexample: with A a 2-point list whose single edge pierces the
unit square B, quadsIntersect(B, A) returns true via the early return in the
first loop, while quadsIntersect(A, B) first tests an edge of B against the
2-point quad A and aborts with an index panic on A[2] (modelled as none), so
the two argument orders do not agree on lists of arbitrary length. -/
theorem is_two_quads_intersect_c10_counterexample :
    is_two_quads_intersect_checked
        [(⟨1/2, 1/2, -1⟩ : V3 ℚ), ⟨1/2, 1/2, 1⟩]
        [⟨0, 0, 0⟩, ⟨1, 0, 0⟩, ⟨1, 1, 0⟩, ⟨0, 1, 0⟩] = none ∧
    is_two_quads_intersect_checked
        [(⟨0, 0, 0⟩ : V3 ℚ), ⟨1, 0, 0⟩, ⟨1, 1, 0⟩, ⟨0, 1, 0⟩]
        [⟨1/2, 1/2, -1⟩, ⟨1/2, 1/2, 1⟩] = some true ∧
    is_two_quads_intersect_checked
        [(⟨1/2, 1/2, -1⟩ : V3 ℚ), ⟨1/2, 1/2, 1⟩]
        [⟨0, 0, 0⟩, ⟨1, 0, 0⟩, ⟨1, 1, 0⟩, ⟨0, 1, 0⟩] ≠
      is_two_quads_intersect_checked
        [(⟨0, 0, 0⟩ : V3 ℚ), ⟨1, 0, 0⟩, ⟨1, 1, 0⟩, ⟨0, 1, 0⟩]
        [⟨1/2, 1/2, -1⟩, ⟨1/2, 1/2, 1⟩] := by
  have hr4 : List.range 4 = [0, 1, 2, 3] := rfl
  have hr2 : List.range 2 = [0, 1] := rfl
  have h1 : is_two_quads_intersect_checked
      [(⟨1/2, 1/2, -1⟩ : V3 ℚ), ⟨1/2, 1/2, 1⟩]
      [⟨0, 0, 0⟩, ⟨1, 0, 0⟩, ⟨1, 1, 0⟩, ⟨0, 1, 0⟩] = none := by
    simp only [is_two_quads_intersect_checked, List.length_cons,
      List.length_nil, hr4, anyChecked, is_segment_and_quad_intersect_checked]
    norm_num
  have h2 : is_two_quads_intersect_checked
      [(⟨0, 0, 0⟩ : V3 ℚ), ⟨1, 0, 0⟩, ⟨1, 1, 0⟩, ⟨0, 1, 0⟩]
      [⟨1/2, 1/2, -1⟩, ⟨1/2, 1/2, 1⟩] = some true := by
    simp only [is_two_quads_intersect_checked, List.length_cons,
      List.length_nil, hr2, anyChecked, is_segment_and_quad_intersect_checked]
    norm_num [is_segment_and_quad_intersect, dot, cross, SMALL_NUM]
  exact ⟨h1, h2, by rw [h1, h2]; simp⟩

/-- C10 amended: for all point lists A and B each containing at least 3
points (so that neither argument order hits the quad indexing panic),
quadsIntersect(A, B) equals quadsIntersect(B, A): both orders complete and
apply the edge-vs-quad test to the same pairs, combined by or. -/
theorem is_two_quads_intersect_c10_amended (A B : List (V3 ℚ))
    (hA : 3 ≤ A.length) (hB : 3 ≤ B.length) :
    is_two_quads_intersect_checked A B = is_two_quads_intersect_checked B A := by
  rw [is_two_quads_intersect_checked_eq A B hA hB,
    is_two_quads_intersect_checked_eq B A hB hA]
  exact congrArg some (is_two_quads_intersect_or_comm A B)

/-- C10 amended witness: a triangle list and a quad list, both of length at
least 3. -/
theorem is_two_quads_intersect_c10_amended_witness :
    is_two_quads_intersect_checked
        [(⟨0, 0, 0⟩ : V3 ℚ), ⟨1, 0, 0⟩, ⟨0, 1, 0⟩]
        [⟨5, 0, 0⟩, ⟨6, 0, 0⟩, ⟨5, 1, 0⟩, ⟨5, 0, 1⟩] =
      is_two_quads_intersect_checked
        [(⟨5, 0, 0⟩ : V3 ℚ), ⟨6, 0, 0⟩, ⟨5, 1, 0⟩, ⟨5, 0, 1⟩]
        [⟨0, 0, 0⟩, ⟨1, 0, 0⟩, ⟨0, 1, 0⟩] :=
  is_two_quads_intersect_c10_amended
    [⟨0, 0, 0⟩, ⟨1, 0, 0⟩, ⟨0, 1, 0⟩]
    [⟨5, 0, 0⟩, ⟨6, 0, 0⟩, ⟨5, 1, 0⟩, ⟨5, 0, 1⟩]
    (by norm_num) (by norm_num)

end Meshlite
